import Mathlib

/-!
Verification of `vkdgen.py` (the D Vulkan bindings generator, repository
`Vild/dvulkan`) against its natural-language specification.

The generator is shallowly embedded: Python strings become `String`/`List Char`,
Python sets of strings become duplicate-free `List String` built by
`pySetAdd`, the XML elements consumed by the generator become explicit
structures carrying exactly the fields the generator reads, and the three
regular expressions `re_single_const`, `re_double_const` and `re_array` are
embedded as executable matchers with Python's leftmost-greedy backtracking
semantics.  Code paths that raise Python exceptions (`IndexError` in
`genCmd`, `TypeError` in `genGroup`) are modelled by `Option`, with `none`
standing for the raised exception.
-/

set_option maxRecDepth 16384

namespace Vkdgen

/-- The ASCII whitespace characters recognised by Python's `str.strip()`
family and by the regex class `\s` (on the ASCII inputs the generator
handles). -/
def pySpaceChars : List Char := [' ', '\t', '\n', '\r', '\x0b', '\x0c']

/-- Whether a character is Python whitespace. -/
def isPySpace (c : Char) : Bool := pySpaceChars.contains c

/-- Python `str.lstrip()` with no argument: drop leading whitespace. -/
def pyLstripWs (l : List Char) : List Char := l.dropWhile isPySpace

/-- Python `str.rstrip()` with no argument: drop trailing whitespace. -/
def pyRstripWs (l : List Char) : List Char := (l.reverse.dropWhile isPySpace).reverse

/-- Python `str.strip()` with no argument: drop whitespace on both ends. -/
def pyStripWs (l : List Char) : List Char := pyRstripWs (pyLstripWs l)

/-- Python `str.lstrip(chars)`: drop leading characters that belong to the
character *set* `cs` (Python treats the argument as a set of characters,
not as a prefix string). -/
def pyLstripSet (cs : List Char) (l : List Char) : List Char := l.dropWhile cs.contains

/-- Python `str.rstrip(chars)`: drop trailing characters from the set `cs`. -/
def pyRstripSet (cs : List Char) (l : List Char) : List Char :=
  (l.reverse.dropWhile cs.contains).reverse

/-- Python `set.add` on an insertion-ordered duplicate-free list model of a
`set` of strings. -/
def pySetAdd (l : List String) (x : String) : List String := if x ∈ l then l else l ++ [x]

/-- Python `str.ljust(n)`: pad with spaces on the right to length `n`. -/
def ljust (s : String) (n : Nat) : String :=
  s ++ String.mk (List.replicate (n - s.length) ' ')

/-- Python `str.upper()` on the ASCII alphabet. -/
def pyUpper (l : List Char) : List Char := l.map Char.toUpper

/-- Whether the list contains a newline; the regex metacharacter `.` matches
every character except `'\n'`. -/
def hasNewline (l : List Char) : Bool := l.contains '\n'

/-- Whether every character of the list is Python whitespace (`\s*`). -/
def allPySpace (l : List Char) : Bool := l.all isPySpace

/-- Greedy match of the regex tail fragment `(.+)\*\s*$` against `r`
(`re_single_const` after its `const\s+` head): the capture of `(.+)` is
`r.take k` for the largest `k ≥ 1` such that `r` carries `'*'` at position
`k`, only whitespace after it, and no newline before it. -/
def dotStarTail (r : List Char) : Option (List Char) :=
  ((List.range r.length).reverse.find? fun k =>
      r[k]? == some '*' && allPySpace (r.drop (k + 1)) &&
      !hasNewline (r.take k) && decide (1 ≤ k)).map r.take

/-- Decides the regex tail fragment `\s+const\*\s*$` against `u`: one or
more whitespace characters, then the literal `const*`, then whitespace to
the end.  Since no whitespace character equals `'c'`, the decomposition is
forced and needs no backtracking. -/
def spaceConstStarTail (u : List Char) : Bool :=
  let w := u.takeWhile isPySpace
  !w.isEmpty && (u.drop w.length).take 6 == "const*".toList &&
    allPySpace ((u.drop w.length).drop 6)

/-- Greedy match of the regex tail fragment `(.+)\*\s+const\*\s*$` against
`r` (`re_double_const` after its `const\s+` head). -/
def dotStarConstTail (r : List Char) : Option (List Char) :=
  ((List.range r.length).reverse.find? fun k =>
      r[k]? == some '*' && spaceConstStarTail (r.drop (k + 1)) &&
      !hasNewline (r.take k) && decide (1 ≤ k)).map r.take

/-- `re_single_const = re.compile(r"^const\s+(.+)\*\s*$")` (vkdgen.py line 15):
returns the capture of group 1 under Python's leftmost-greedy backtracking
(`\s+` as long as possible first, then `(.+)` as long as possible). -/
def matchSingleConst (l : List Char) : Option (List Char) :=
  if l.take 5 = "const".toList then
    let rest := l.drop 5
    let maxW := (rest.takeWhile isPySpace).length
    ((List.range maxW).reverse.map (· + 1)).findSome? fun w => dotStarTail (rest.drop w)
  else none

/-- `re_double_const = re.compile(r"^const\s+(.+)\*\s+const\*\s*$")`
(vkdgen.py line 16): capture of group 1 under greedy backtracking. -/
def matchDoubleConst (l : List Char) : Option (List Char) :=
  if l.take 5 = "const".toList then
    let rest := l.drop 5
    let maxW := (rest.takeWhile isPySpace).length
    ((List.range maxW).reverse.map (· + 1)).findSome? fun w => dotStarConstTail (rest.drop w)
  else none

/-- `convertTypeConst` (vkdgen.py lines 101-112): converts C const syntax to
D const syntax.  Tries the double-const-pointer pattern first, then the
single-const-pointer pattern, otherwise returns the input unchanged. -/
def convertTypeConst (typ : String) : String :=
  match matchDoubleConst typ.toList with
  | some g => "const(" ++ g.asString ++ "*)*"
  | none =>
    match matchSingleConst typ.toList with
    | some g => "const(" ++ g.asString ++ ")*"
    | none => typ

/-- `re_array = re.compile(r"^([^\[]+)\[(\d+)\]$")` (vkdgen.py line 17)
applied to a declared name: a nonempty bracket-free base followed by a
bracketed digit string ending the name.  The decomposition is forced, since
the base cannot contain `'['`. -/
def matchArray (l : List Char) : Option (List Char × List Char) :=
  let base := l.takeWhile (· ≠ '[')
  match l.drop base.length with
  | '[' :: rest =>
    let digs := rest.takeWhile Char.isDigit
    if base ≠ [] ∧ digs ≠ [] ∧ rest.drop digs.length = [']'] then some (base, digs) else none
  | _ => none

/-- `convertTypeArray` (vkdgen.py lines 114-119): rewrite a bracketed
fixed-length array suffix of the declared name into a D array type. -/
def convertTypeArray (typ name : String) : String × String :=
  match matchArray name.toList with
  | some (base, digs) => (typ ++ "[" ++ digs.asString ++ "]", base.asString)
  | none => (typ, name)

/-- One XML `<member>`, `<param>` or `<proto>` element exactly as the
generator reads it: `elem.text`, the `<type>` child's text and tail, the
optional `<enum>` child's text (a fixed array length), and the `<name>`
child's text and tail. -/
structure ParamElem where
  text : Option String
  typeText : String
  typeTail : Option String
  enumText : Option String
  nameText : String
  nameTail : Option String
deriving DecidableEq

/-- The qualified type string `typstr` built by `getFullType` before the
opaque-struct handling (vkdgen.py line 86):
`(elem.text or "").lstrip() + typ.text.strip() + (typ.tail or "").rstrip()`. -/
def typstrOf (elem : ParamElem) : List Char :=
  pyLstripWs (elem.text.getD "").toList ++ pyStripWs elem.typeText.toList ++
    pyRstripWs (elem.typeTail.getD "").toList

/-- The character *set* Python builds from the argument `'struct '` of
`str.lstrip` (vkdgen.py line 90). -/
def structStripSet : List Char := ['s', 't', 'r', 'u', 'c', ' ']

/-- `getFullType` (vkdgen.py lines 84-99): the returned type string.  The
result does not depend on the optional `opaqueStruct` set argument; that
side effect is modelled separately by `getFullTypeOpaq`. -/
def getFullType (elem : ParamElem) : String :=
  let typstr := typstrOf elem
  let typstr := if typstr.take 6 = "struct".toList then pyLstripSet structStripSet typstr
    else typstr
  match elem.enumText with
  | some arrlen => typstr.asString ++ "[" ++ arrlen ++ "]"
  | none => typstr.asString ++ (elem.nameTail.getD "")

/-- The opaque-struct registration side effect of `getFullType` when called
with a set (vkdgen.py lines 89-92): when `typstr` starts with `struct`,
add `typstr.lstrip('struct ').rstrip('*')` to the set. -/
def getFullTypeOpaq (elem : ParamElem) (opaqStruct : List String) : List String :=
  let typstr := typstrOf elem
  if typstr.take 6 = "struct".toList then
    pySetAdd opaqStruct (pyRstripSet ['*'] (pyLstripSet structStripSet typstr)).asString
  else opaqStruct

/-- The fixed set of device-adjacent first-parameter handle types used by
`genCmd` for classification (vkdgen.py line 529). -/
def deviceHandleTypes : List String := ["VkDevice", "VkQueue", "VkCommandBuffer"]

/-- The two command-classification sets accumulated by the generator
(vkdgen.py lines 127, 129). -/
structure CmdClassState where
  instanceLevelFuncNames : List String
  deviceLevelFuncNames : List String
deriving DecidableEq

/-- The classification step of `genCmd` (vkdgen.py lines 528-533).  `none`
models the `IndexError` raised by `params[0]` on an empty parameter list;
the conjunction `name != "vkGetDeviceProcAddr" and ...` short-circuits, so
no exception occurs for `vkGetDeviceProcAddr` itself. -/
def genCmdClassify (name : String) (params : List ParamElem) (st : CmdClassState) :
    Option CmdClassState :=
  if name ≠ "vkGetDeviceProcAddr" then
    params[0]?.map fun p =>
      if getFullType p ∈ deviceHandleTypes then
        { st with deviceLevelFuncNames := pySetAdd st.deviceLevelFuncNames name }
      else
        { st with instanceLevelFuncNames := pySetAdd st.instanceLevelFuncNames name }
  else
    some { st with instanceLevelFuncNames := pySetAdd st.instanceLevelFuncNames name }

/-- The alias-emission step of `genCmd` (vkdgen.py lines 521-526): the
function-pointer type alias appended to the `command` section, plus the
opaque-struct set threaded through the parameter loop. -/
def genCmdEmit (name : String) (proto : ParamElem) (params : List ParamElem)
    (opaqStruct : List String) : String × List String :=
  let returnType := convertTypeConst (pyStripWs (getFullType proto).toList).asString
  let r := params.foldl
    (fun (acc : List String × List String) (p : ParamElem) =>
      (acc.1 ++ [convertTypeConst (pyStripWs (getFullType p).toList).asString ++ " " ++ p.nameText],
        getFullTypeOpaq p acc.2))
    ([], opaqStruct)
  ("\talias PFN_" ++ name ++ " = " ++ returnType ++ " function(" ++
    String.intercalate ", " r.1 ++ ");", r.2)

/-- `re.sub(re_camel_case, "\g<1>_\g<2>", s)` where `re_camel_case =
([a-z])([A-Z])` (vkdgen.py lines 18, 427): insert `'_'` between a lowercase
letter and a following uppercase letter, scanning left to right without
overlap (a matched pair is consumed; its uppercase letter cannot open the
next match anyway). -/
def camelCaseSub : List Char → List Char
  | c1 :: c2 :: rest =>
    if ('a' ≤ c1 ∧ c1 ≤ 'z') ∧ ('A' ≤ c2 ∧ c2 ≤ 'Z') then
      c1 :: '_' :: c2 :: camelCaseSub rest
    else
      c1 :: camelCaseSub (c2 :: rest)
  | l => l

/-- One processed member of `genStruct`'s first loop (vkdgen.py lines
405-414): translate the type, rename the reserved identifier `module`,
rewrite a fixed-array suffix of the name. -/
def memberTypeNamePair (m : ParamElem) : String × String :=
  let memberType := convertTypeConst (pyStripWs (getFullType m).toList).asString
  let memberName := if m.nameText = "module" then "_module" else m.nameText
  convertTypeArray memberType memberName

/-- `targetLen`, the member-alignment column of `genStruct` (vkdgen.py
lines 402, 415): the maximum translated-type-string length. -/
def targetLenOf (pairs : List (String × String)) : Nat :=
  pairs.foldl (fun acc p => max acc p.1.length) 0

/-- One member line emitted by `genStruct`'s second loop (vkdgen.py lines
419-432), including the synthesized `sType` default value and the
hand-mapped `VkWin32SurfaceCreateInfoKHR` override. -/
def structFieldLine (isVkWin32SurfaceCreateInfoKHR : Bool) (name : String)
    (targetLen : Nat) (p : String × String) : String :=
  if p.2 = "sType" ∧ p.1 = "VkStructureType" then
    if isVkWin32SurfaceCreateInfoKHR then
      "\t" ++ ljust "VkStructureType" (targetLen + 1) ++
        " sType = VkStructureType.VK_STRUCTURE_TYPE_" ++ "WIN32_SURFACE_CREATE_INFO_KHR" ++ ";"
    else
      "\t" ++ ljust "VkStructureType" targetLen ++
        "  sType = VkStructureType.VK_STRUCTURE_TYPE_" ++
        (pyUpper (camelCaseSub (name.toList.drop 2))).asString ++ ";"
  else
    "\t" ++ ljust p.1 targetLen ++ "  " ++ p.2 ++ ";"

/-- The full list of lines `genStruct` appends to the `struct` section
(vkdgen.py lines 398-434): header, one line per member, closing brace. -/
def genStructLines (category name : String) (members : List ParamElem)
    (indent : String) : List String :=
  ("\n" ++ indent ++ category ++ " " ++ name ++ " \x7b") ::
    (members.map memberTypeNamePair).map
      (structFieldLine (name == "VkWin32SurfaceCreateInfoKHR") name
        (targetLenOf (members.map memberTypeNamePair))) ++ ["\x7d"]

/-- The opaque-struct side effect of `genStruct`'s first member loop
(vkdgen.py line 406). -/
def genStructOpaq (members : List ParamElem) (opaqStruct : List String) : List String :=
  members.foldl (fun o m => getFullTypeOpaq m o) opaqStruct

/-- `TYPE_SECTIONS` (vkdgen.py line 123). -/
def TYPE_SECTIONS : List String :=
  ["include", "define", "basetype", "handle", "enum", "group", "bitmask", "funcpointer", "struct"]

/-- The lines `endFeature` writes to the types file for one section
(vkdgen.py lines 261-273): nothing for an empty section; for a non-empty
`struct` section with a non-empty opaque-struct set, one forward
declaration per registered name plus a blank line, ahead of the section
contents. -/
def sectionOutput (sect : String) (contents : List String) (opaqStruct : List String)
    (indent : String) : List String :=
  if contents = [] then []
  else
    (if sect = "struct" ∧ opaqStruct ≠ [] then
      opaqStruct.map (fun o => indent ++ "struct " ++ o ++ ";") ++ [""]
    else []) ++ contents.map (fun c => indent ++ c)

/-- The whole per-block type-section flush of `endFeature` (vkdgen.py
lines 261-273), in the fixed `TYPE_SECTIONS` order. -/
def endFeatureTypeLines (sections : String → List String) (opaqStruct : List String)
    (indent : String) : List String :=
  TYPE_SECTIONS.flatMap fun sect => sectionOutput sect (sections sect) opaqStruct indent

/-- Group-1 character class `[0-9a-z_]` of the name-expansion regex
(vkdgen.py line 443). -/
def isExpandG1 (c : Char) : Bool :=
  decide (('0' ≤ c ∧ c ≤ '9') ∨ ('a' ≤ c ∧ c ≤ 'z') ∨ c = '_')

/-- Leading character class `[A-Z0-9]` of group 2 of the name-expansion
regex (vkdgen.py line 443). -/
def isExpandG2 (c : Char) : Bool :=
  decide (('A' ≤ c ∧ c ≤ 'Z') ∨ ('0' ≤ c ∧ c ≤ '9'))

/-- `re.sub(r'([0-9a-z_])([A-Z0-9][^A-Z0-9]?)', r'\1_\2', s)` (vkdgen.py
line 443): left-to-right non-overlapping scan; a match consumes its two
groups, the optional third character being taken greedily when it is not
in `[A-Z0-9]`. -/
def expandSub : List Char → List Char
  | c1 :: c2 :: rest =>
    if isExpandG1 c1 && isExpandG2 c2 then
      match rest with
      | [] => c1 :: '_' :: c2 :: []
      | c3 :: rest2 =>
        if isExpandG2 c3 then c1 :: '_' :: c2 :: expandSub (c3 :: rest2)
        else c1 :: '_' :: c2 :: c3 :: expandSub rest2
    else c1 :: expandSub (c2 :: rest)
  | l => l

/-- `expandName` (vkdgen.py line 443): camel-case expansion then
upper-casing of the group name. -/
def expandNameOf (groupName : String) : List Char := pyUpper (expandSub groupName.toList)

/-- `re.search(r'[A-Z][A-Z]+$', groupName)` (vkdgen.py line 447): the
maximal trailing run of uppercase letters when it has length at least
two. -/
def expandSuffixOf (groupName : String) : Option (List Char) :=
  let r := (groupName.toList.reverse.takeWhile fun c => decide ('A' ≤ c ∧ c ≤ 'Z')).reverse
  if 2 ≤ r.length then some r else none

/-- The suffix string appended to every sentinel token: `'_' + match` when
the trailing-acronym search succeeded, empty otherwise (vkdgen.py lines
446-449). -/
def expandSuffixText (groupName : String) : List Char :=
  match expandSuffixOf groupName with
  | some suf => '_' :: suf
  | none => []

/-- The index of the last occurrence of `sep` inside `l`, when any. -/
def lastOcc (sep l : List Char) : Option Nat :=
  (List.range (l.length + 1)).reverse.find? fun i => (l.drop i).take sep.length == sep

/-- Python `s.rsplit(sep, 1)[0]`: the part before the last occurrence of
`sep`, or all of `s` when `sep` does not occur (vkdgen.py line 451). -/
def rsplitBefore (l sep : List Char) : List Char :=
  match lastOcc sep l with
  | some i => l.take i
  | none => l

/-- `expandPrefix` (vkdgen.py lines 445-451): the expanded name with the
trailing-acronym suffix stripped off its end. -/
def expandPrefOf (groupName : String) : List Char :=
  match expandSuffixOf groupName with
  | some suf => rsplitBefore (expandNameOf groupName) ('_' :: suf)
  | none => expandNameOf groupName

/-- Python's substring test `needle in hay`. -/
def strIn (needle hay : List Char) : Bool := decide (needle <:+: hay)

/-- One enumerant element of a grouped enumeration, with the fields the
generator reads: the name, the resolved numeric value and value string
from `enumToValue`, and the `extname`, `supported` and `extends`
attributes (`extendsAttr` here, since `extends` names the attribute). -/
structure EnumElem where
  name : String
  numVal : Int
  strVal : String
  extname : Option String
  supported : Option String
  extendsAttr : Option String
deriving DecidableEq

/-- The generator options read by `genGroup`: `re.match(addExtensions, x)`
is abstracted as the Boolean predicate `addExtensionsMatch` (the driver
passes the regex `.*`, which matches everything), and
`defaultExtensions`, which Python compares to the `supported` attribute
with `==` (both may be `None`). -/
structure GroupOpts where
  addExtensionsMatch : String → Bool
  defaultExtensions : Option String

/-- The extension-inclusion filter of `genGroup` (vkdgen.py lines
475-477): include when there is no owning extension, or the owning
extension matches `addExtensions`, or `defaultExtensions` equals the
`supported` attribute. -/
def includeElem (opts : GroupOpts) (e : EnumElem) : Bool :=
  e.extname.isNone ||
    (match e.extname with
     | some x => opts.addExtensionsMatch x
     | none => false) ||
    opts.defaultExtensions == e.supported

/-- The min/max tracking step of `genGroup`'s member loop (vkdgen.py lines
481-490): run for members without an `extends` attribute; the first such
member initialises all four variables, then strictly smaller values move
the minimum and strictly larger values move the maximum. -/
def minMaxStep (mm : Option (String × Int × String × Int)) (e : EnumElem) :
    Option (String × Int × String × Int) :=
  if e.extendsAttr.isSome then mm
  else
    match mm with
    | none => some (e.name, e.numVal, e.name, e.numVal)
    | some (mn, mv, xn, xv) =>
      if e.numVal < mv then some (e.name, e.numVal, xn, xv)
      else if xv < e.numVal then some (mn, mv, e.name, e.numVal)
      else some (mn, mv, xn, xv)

/-- The member text appended to `body` for one element (vkdgen.py line
478): only included members contribute a line. -/
def groupMemberText (opts : GroupOpts) (e : EnumElem) : String :=
  if includeElem opts e then "\t" ++ e.name ++ " = " ++ e.strVal ++ ",\n" else ""

/-- The member part of `body`, accumulated over the loop (vkdgen.py lines
466-479). -/
def groupBodyMembers (opts : GroupOpts) (elems : List EnumElem) : String :=
  elems.foldl (fun acc e => acc ++ groupMemberText opts e) ""

/-- The three range sentinels of a plain enumeration (vkdgen.py lines
494-496). -/
def sentinelText (pref suf : List Char) (mn xn : String) : String :=
  "\t" ++ pref.asString ++ "_BEGIN_RANGE" ++ suf.asString ++ " = " ++ mn ++ ",\n" ++
  "\t" ++ pref.asString ++ "_END_RANGE" ++ suf.asString ++ " = " ++ xn ++ ",\n" ++
  "\t" ++ pref.asString ++ "_RANGE_SIZE" ++ suf.asString ++ " = (" ++ xn ++ " - " ++
    mn ++ " + 1),\n"

/-- The `body` string built by `genGroup` (vkdgen.py lines 441-502).
`none` models the `TypeError` raised at line 494 when a plain enumeration
(`'FLAG_BITS' not in expandPrefix`) has processed no member free of an
`extends` attribute, so that `minName` is still `None` when concatenated.
The source accumulates the member text and the min/max tracking in one
loop; the two accumulations are independent and are embedded as separate
folds.  The parallel `globalEnums` flat-alias block (lines 456-457, 479,
498-503) is a second output string whose content no claim refers to; the
`TypeError` occurs before any of its sentinel lines are appended. -/
def genGroupBody (opts : GroupOpts) (groupName : String) (elems : List EnumElem) :
    Option String :=
  if !strIn "FLAG_BITS".toList (expandPrefOf groupName) then
    match elems.foldl minMaxStep none with
    | none => none
    | some (mn, _, xn, _) =>
      some ("\nenum " ++ groupName ++ " \x7b\n" ++ groupBodyMembers opts elems ++
        sentinelText (expandPrefOf groupName) (expandSuffixText groupName) mn xn ++
        "\t" ++ (expandPrefOf groupName).asString ++ "_MAX_ENUM" ++
          (expandSuffixText groupName).asString ++ " = 0x7FFFFFFF\n\x7d")
  else
    some ("\nenum " ++ groupName ++ " \x7b\n" ++ groupBodyMembers opts elems ++
      "\t" ++ (expandPrefOf groupName).asString ++ "_MAX_ENUM" ++
        (expandSuffixText groupName).asString ++ " = 0x7FFFFFFF\n\x7d")

/-- Invariant of the min/max fold: relative to the already processed
members, a `none` accumulator means no member without `extends` has been
seen, and a `some` accumulator carries an attained minimum and maximum
over the members without `extends`. -/
def MMInv (processed : List EnumElem) (acc : Option (String × Int × String × Int)) : Prop :=
  match acc with
  | none => ∀ e ∈ processed, e.extendsAttr.isSome = true
  | some (mn, mv, xn, xv) =>
      (∃ e ∈ processed, e.extendsAttr = none ∧ e.name = mn ∧ e.numVal = mv) ∧
      (∃ e ∈ processed, e.extendsAttr = none ∧ e.name = xn ∧ e.numVal = xv) ∧
      ∀ e ∈ processed, e.extendsAttr = none → mv ≤ e.numVal ∧ e.numVal ≤ xv

/-- The fixed set of global-only bootstrap command names (vkdgen.py line
331; the source spells the variable `gloablLevelFuncNames`). -/
def gloablLevelFuncNames : List String :=
  ["vkGetInstanceProcAddr", "vkEnumerateInstanceExtensionProperties",
   "vkEnumerateInstanceLayerProperties", "vkCreateInstance"]

/-- One instance-level resolution statement (vkdgen.py line 337). -/
def instanceLoadStmt (extIndent name : String) : String :=
  "\n\t\t" ++ extIndent ++ name ++ " = cast(typeof(" ++ name ++
    ")) vkGetInstanceProcAddr(instance, \"" ++ name ++ "\");"

/-- The loop of vkdgen.py lines 334-337: append one resolution statement
per block command whose name is in `instanceLevelFuncNames` but not in the
bootstrap set. -/
def instanceLevelAdditions (blockCmdNames instanceLevel : List String)
    (extIndent : String) : String :=
  blockCmdNames.foldl
    (fun acc name =>
      if name ∈ instanceLevel ∧ name ∉ gloablLevelFuncNames then
        acc ++ instanceLoadStmt extIndent name
      else acc) ""

/-- The block commands that receive an instance-level resolution
statement: the filter equivalent of the loop condition. -/
def instanceResolvedNames (blockCmdNames instanceLevel : List String) : List String :=
  blockCmdNames.filter fun name =>
    decide (name ∈ instanceLevel ∧ name ∉ gloablLevelFuncNames)

/-- The bootstrap entry point emitted verbatim by `endFile` (vkdgen.py
lines 171-176, after brace unescaping): it stores its argument into
`vkGetInstanceProcAddr` and resolves the other three bootstrap commands
directly through it. -/
def loadGlobalLevelFunctionsText : String :=
  "\tstatic void loadGlobalLevelFunctions(typeof(vkGetInstanceProcAddr) getProcAddr) \x7b\n" ++
  "\t\tvkGetInstanceProcAddr = getProcAddr;\n" ++
  "\t\tvkEnumerateInstanceExtensionProperties = cast(typeof(vkEnumerateInstanceExtensionProperties)) vkGetInstanceProcAddr(null, \"vkEnumerateInstanceExtensionProperties\");\n" ++
  "\t\tvkEnumerateInstanceLayerProperties = cast(typeof(vkEnumerateInstanceLayerProperties)) vkGetInstanceProcAddr(null, \"vkEnumerateInstanceLayerProperties\");\n" ++
  "\t\tvkCreateInstance = cast(typeof(vkCreateInstance)) vkGetInstanceProcAddr(null, \"vkCreateInstance\");\n" ++
  "\t\x7d"

/-- The head of the `loadInstanceLevelFunctions` template (vkdgen.py lines
179-180), with `{NAME_PREFIX}` substituted. -/
def loadInstanceLevelFunctionsHead (namePrefix : String) : String :=
  "\tstatic void loadInstanceLevelFunctions(VkInstance instance) \x7b\n\t\tassert(vkGetInstanceProcAddr !is null, \"Must call " ++
  (namePrefix ++ ("Loader.loadGlobalLevelFunctions before " ++
    (namePrefix ++ "Loader.loadInstanceLevelFunctions\");")))

/-- The head of the `VkInstance` overload of `loadDeviceLevelFunctions`
(vkdgen.py lines 188-189), with `{NAME_PREFIX}` substituted. -/
def loadDeviceLevelFunctionsIHead (namePrefix : String) : String :=
  "\tstatic void loadDeviceLevelFunctions(VkInstance instance) \x7b\n\t\tassert(vkGetInstanceProcAddr !is null, \"Must call " ++
  (namePrefix ++ ("Loader.loadInstanceLevelFunctions before " ++
    (namePrefix ++ "Loader.loadDeviceLevelFunctions\");")))

/-- The head of the `VkDevice` overload of `loadDeviceLevelFunctions`
(vkdgen.py lines 197-198), with `{NAME_PREFIX}` substituted. -/
def loadDeviceLevelFunctionsDHead (namePrefix : String) : String :=
  "\tstatic void loadDeviceLevelFunctions(VkDevice device) \x7b\n\t\tassert(vkGetDeviceProcAddr !is null, \"Must call " ++
  (namePrefix ++ ("Loader.loadInstanceLevelFunctions before " ++
    (namePrefix ++ "Loader.loadDeviceLevelFunctions\");")))

/-- The four entry points of the generated loader type (vkdgen.py lines
164-203): `loadDeviceLevelFunctionsI` is the `VkInstance` overload and
`loadDeviceLevelFunctionsD` the `VkDevice` overload; the bootstrap call
carries whether the getter passed by the caller is non-null. -/
inductive LoaderCall
  | loadGlobalLevelFunctions (getProcAddrNonNull : Bool)
  | loadInstanceLevelFunctions
  | loadDeviceLevelFunctionsI
  | loadDeviceLevelFunctionsD
deriving DecidableEq

/-- The loader-relevant runtime state of the generated module: whether the
two proc-address getters are non-null, and which entry points have
completed.  `vkGetInstanceProcAddr` is stored only by the bootstrap entry
point; `vkGetDeviceProcAddr` is classified instance-level (its name is
excluded at vkdgen.py line 529), so it is resolved by
`loadInstanceLevelFunctions`. -/
structure LoaderState where
  vkGetInstanceProcAddrSet : Bool
  vkGetDeviceProcAddrSet : Bool
  ranGlobal : Bool
  ranInstance : Bool
deriving DecidableEq

/-- One call of a generated loader entry point; a failed `assert` is
non-recoverable and modelled by `none`.  Per the templates at vkdgen.py
lines 171-200: the bootstrap stores its argument into
`vkGetInstanceProcAddr`; `loadInstanceLevelFunctions` asserts
`vkGetInstanceProcAddr !is null` and resolves the instance-level commands
(`vkGetDeviceProcAddr` among them; resolution through a non-null getter is
assumed to succeed); the `VkInstance` overload of
`loadDeviceLevelFunctions` asserts `vkGetInstanceProcAddr !is null`; the
`VkDevice` overload asserts `vkGetDeviceProcAddr !is null`. -/
def loaderStep (s : LoaderState) : LoaderCall → Option LoaderState
  | .loadGlobalLevelFunctions b =>
    some { s with vkGetInstanceProcAddrSet := b, ranGlobal := true }
  | .loadInstanceLevelFunctions =>
    if s.vkGetInstanceProcAddrSet then
      some { s with vkGetDeviceProcAddrSet := true, ranInstance := true }
    else none
  | .loadDeviceLevelFunctionsI =>
    if s.vkGetInstanceProcAddrSet then some s else none
  | .loadDeviceLevelFunctionsD =>
    if s.vkGetDeviceProcAddrSet then some s else none

/-- Execution of a loader call sequence from a given state. -/
def loaderRunFrom (s : LoaderState) (calls : List LoaderCall) : Option LoaderState :=
  calls.foldlM loaderStep s

/-- Execution from the initial all-null state of the generated module. -/
def loaderRun (calls : List LoaderCall) : Option LoaderState :=
  loaderRunFrom ⟨false, false, false, false⟩ calls

/-! ## General helper lemmas -/

theorem length_takeWhile_le (p : Char → Bool) (l : List Char) :
    (l.takeWhile p).length ≤ l.length := by
  have h := congrArg List.length (List.takeWhile_append_dropWhile p l)
  rw [List.length_append] at h
  omega

theorem all_take_of_le_takeWhile {p : Char → Bool} {l : List Char} {n : Nat}
    (h : n ≤ (l.takeWhile p).length) : (l.take n).all p = true := by
  have h2 : l.take n = (l.takeWhile p).take n := by
    conv_lhs => rw [← List.takeWhile_append_dropWhile p l]
    rw [List.take_append_of_le_length h]
  rw [h2, List.all_eq_true]
  intro x hx
  exact List.mem_takeWhile_imp ((List.take_sublist n _).subset hx)

theorem take_takeWhile_length (p : Char → Bool) (l : List Char) :
    l.take (l.takeWhile p).length = l.takeWhile p :=
  calc l.take (l.takeWhile p).length
      = (l.takeWhile p ++ l.dropWhile p).take (l.takeWhile p).length := by
        rw [List.takeWhile_append_dropWhile]
    _ = l.takeWhile p := List.take_left _ _

theorem drop_takeWhile_length (p : Char → Bool) (l : List Char) :
    l.drop (l.takeWhile p).length = l.dropWhile p :=
  calc l.drop (l.takeWhile p).length
      = (l.takeWhile p ++ l.dropWhile p).drop (l.takeWhile p).length := by
        rw [List.takeWhile_append_dropWhile]
    _ = l.dropWhile p := List.drop_left _ _

/-! ## Soundness of the embedded regex matchers -/

theorem dotStarTail_sound {r g : List Char} (h : dotStarTail r = some g) :
    ∃ t, r = g ++ '*' :: t ∧ g ≠ [] ∧ hasNewline g = false ∧ allPySpace t = true := by
  rw [dotStarTail, Option.map_eq_some'] at h
  obtain ⟨k, hfind, hg⟩ := h
  have hmem := List.mem_of_find?_eq_some hfind
  have hk : k < r.length := by
    rw [List.mem_reverse, List.mem_range] at hmem
    exact hmem
  have hp := List.find?_some hfind
  simp only [Bool.and_eq_true, beq_iff_eq, Bool.not_eq_true', decide_eq_true_iff] at hp
  obtain ⟨⟨⟨hstar, hsp⟩, hnl⟩, hone⟩ := hp
  have hstar' : r[k] = '*' := by
    rw [List.getElem?_eq_some] at hstar
    exact hstar.2
  refine ⟨r.drop (k + 1), ?_, ?_, ?_, hsp⟩
  · conv_lhs => rw [← List.take_append_drop k r, List.drop_eq_getElem_cons hk, hstar']
    rw [← hg]
  · rw [← hg]
    apply List.ne_nil_of_length_pos
    rw [List.length_take]
    omega
  · rw [← hg]
    exact hnl

theorem spaceConstStarTail_sound {u : List Char} (h : spaceConstStarTail u = true) :
    ∃ w2 t, u = w2 ++ "const*".toList ++ t ∧ w2 ≠ [] ∧ allPySpace w2 = true ∧
      allPySpace t = true := by
  rw [spaceConstStarTail] at h
  simp only [Bool.and_eq_true, beq_iff_eq, Bool.not_eq_true'] at h
  obtain ⟨⟨hne0, htake⟩, hrest⟩ := h
  set w2 := u.takeWhile isPySpace with hw2
  have hne : w2 ≠ [] := by
    intro hnil
    rw [hnil] at hne0
    simp at hne0
  have hu1 : u = w2 ++ u.drop w2.length := by
    conv_lhs => rw [← List.take_append_drop w2.length u]
    rw [hw2, take_takeWhile_length]
  have hu2 : u.drop w2.length =
      "const*".toList ++ (u.drop w2.length).drop ("const*".toList).length := by
    conv_lhs => rw [← List.take_append_drop ("const*".toList).length (u.drop w2.length)]
    rw [show ("const*".toList).length = 6 from rfl, htake]
  refine ⟨w2, (u.drop w2.length).drop 6, ?_, hne, List.all_takeWhile, hrest⟩
  conv_lhs => rw [hu1, hu2]
  rw [List.append_assoc]
  rfl

theorem dotStarConstTail_sound {r g : List Char} (h : dotStarConstTail r = some g) :
    ∃ w2 t, r = g ++ '*' :: (w2 ++ "const*".toList ++ t) ∧ g ≠ [] ∧
      hasNewline g = false ∧ w2 ≠ [] ∧ allPySpace w2 = true ∧ allPySpace t = true := by
  rw [dotStarConstTail, Option.map_eq_some'] at h
  obtain ⟨k, hfind, hg⟩ := h
  have hmem := List.mem_of_find?_eq_some hfind
  have hk : k < r.length := by
    rw [List.mem_reverse, List.mem_range] at hmem
    exact hmem
  have hp := List.find?_some hfind
  simp only [Bool.and_eq_true, beq_iff_eq, Bool.not_eq_true', decide_eq_true_iff] at hp
  obtain ⟨⟨⟨hstar, hsp⟩, hnl⟩, hone⟩ := hp
  have hstar' : r[k] = '*' := by
    rw [List.getElem?_eq_some] at hstar
    exact hstar.2
  obtain ⟨w2, t, hdec, hw2ne, hw2sp, htsp⟩ := spaceConstStarTail_sound hsp
  refine ⟨w2, t, ?_, ?_, ?_, hw2ne, hw2sp, htsp⟩
  · conv_lhs => rw [← List.take_append_drop k r, List.drop_eq_getElem_cons hk, hstar', hdec]
    rw [← hg, List.append_assoc]
  · rw [← hg]
    apply List.ne_nil_of_length_pos
    rw [List.length_take]
    omega
  · rw [← hg]
    exact hnl

theorem matchSingleConst_sound {l g : List Char} (h : matchSingleConst l = some g) :
    ∃ w t, l = "const".toList ++ w ++ g ++ '*' :: t ∧ w ≠ [] ∧ allPySpace w = true ∧
      g ≠ [] ∧ hasNewline g = false ∧ allPySpace t = true := by
  rw [matchSingleConst] at h
  split at h
  case isFalse => exact absurd h (by simp)
  case isTrue htake =>
    obtain ⟨w, hwmem, hdot⟩ := List.exists_of_findSome?_eq_some h
    simp only [List.mem_map, List.mem_reverse, List.mem_range] at hwmem
    obtain ⟨m, hm, hw⟩ := hwmem
    have hw1 : 1 ≤ w := by omega
    have hwle : w ≤ ((l.drop 5).takeWhile isPySpace).length := by omega
    obtain ⟨t, hdec, hgne, hgnl, htsp⟩ := dotStarTail_sound hdot
    refine ⟨(l.drop 5).take w, t, ?_, ?_, all_take_of_le_takeWhile hwle, hgne, hgnl, htsp⟩
    · conv_lhs => rw [← List.take_append_drop 5 l, htake,
        ← List.take_append_drop w (l.drop 5), hdec]
      simp [List.append_assoc]
    · apply List.ne_nil_of_length_pos
      rw [List.length_take]
      have : w ≤ (l.drop 5).length :=
        Nat.le_trans hwle (length_takeWhile_le _ _)
      omega

theorem matchDoubleConst_sound {l g : List Char} (h : matchDoubleConst l = some g) :
    ∃ w w2 t, l = "const".toList ++ w ++ g ++ '*' :: (w2 ++ "const*".toList ++ t) ∧
      w ≠ [] ∧ allPySpace w = true ∧ g ≠ [] ∧ hasNewline g = false ∧
      w2 ≠ [] ∧ allPySpace w2 = true ∧ allPySpace t = true := by
  rw [matchDoubleConst] at h
  split at h
  case isFalse => exact absurd h (by simp)
  case isTrue htake =>
    obtain ⟨w, hwmem, hdot⟩ := List.exists_of_findSome?_eq_some h
    simp only [List.mem_map, List.mem_reverse, List.mem_range] at hwmem
    obtain ⟨m, hm, hw⟩ := hwmem
    have hw1 : 1 ≤ w := by omega
    have hwle : w ≤ ((l.drop 5).takeWhile isPySpace).length := by omega
    obtain ⟨w2, t, hdec, hgne, hgnl, hw2ne, hw2sp, htsp⟩ := dotStarConstTail_sound hdot
    refine ⟨(l.drop 5).take w, w2, t, ?_, ?_, all_take_of_le_takeWhile hwle,
      hgne, hgnl, hw2ne, hw2sp, htsp⟩
    · conv_lhs => rw [← List.take_append_drop 5 l, htake,
        ← List.take_append_drop w (l.drop 5), hdec]
      simp [List.append_assoc]
    · apply List.ne_nil_of_length_pos
      rw [List.length_take]
      have : w ≤ (l.drop 5).length :=
        Nat.le_trans hwle (length_takeWhile_le _ _)
      omega

/-! ## C4: the case analysis of convertTypeConst -/

/-- C4: For every qualified type string, `convertTypeConst` applies exactly
these rules in this precedence: a string matching the double-const-pointer
shape `const T* const*` is rewritten to `const(T*)*`, a string matching the
single-const-pointer shape `const T*` is rewritten to `const(T)*`, and any
other string is returned unchanged.  The shape conjuncts certify that a
successful match really has the claimed `const T* const*` / `const T*`
decomposition. -/
theorem convertTypeConst_cases (typ : String) :
    (∀ g, matchDoubleConst typ.toList = some g →
        convertTypeConst typ = "const(" ++ g.asString ++ "*)*" ∧
        ∃ w w2 t, typ.toList = "const".toList ++ w ++ g ++ '*' :: (w2 ++ "const*".toList ++ t) ∧
          w ≠ [] ∧ allPySpace w = true ∧ g ≠ [] ∧ hasNewline g = false ∧
          w2 ≠ [] ∧ allPySpace w2 = true ∧ allPySpace t = true) ∧
    (matchDoubleConst typ.toList = none → ∀ g, matchSingleConst typ.toList = some g →
        convertTypeConst typ = "const(" ++ g.asString ++ ")*" ∧
        ∃ w t, typ.toList = "const".toList ++ w ++ g ++ '*' :: t ∧
          w ≠ [] ∧ allPySpace w = true ∧ g ≠ [] ∧ hasNewline g = false ∧
          allPySpace t = true) ∧
    (matchDoubleConst typ.toList = none → matchSingleConst typ.toList = none →
        convertTypeConst typ = typ) := by
  refine ⟨fun g hg => ⟨?_, matchDoubleConst_sound hg⟩,
    fun hd g hg => ⟨?_, matchSingleConst_sound hg⟩, fun hd hs => ?_⟩
  · rw [convertTypeConst, hg]
  · rw [convertTypeConst, hd, hg]
  · rw [convertTypeConst, hd, hs]

/-- Witness for C4 at the concrete input `"const char* const*"`. -/
theorem convertTypeConst_cases_witness :
    convertTypeConst "const char* const*" = "const(" ++ "char".toList.asString ++ "*)*" :=
  ((convertTypeConst_cases "const char* const*").1 "char".toList (by decide)).1

/-! ## C9: idempotence of convertTypeConst on matched inputs -/

theorem matchSingleConst_constParen (x : List Char) :
    matchSingleConst ('c' :: 'o' :: 'n' :: 's' :: 't' :: '(' :: x) = none := by
  have h1 : ('c' :: 'o' :: 'n' :: 's' :: 't' :: '(' :: x).take 5 = "const".toList := rfl
  rw [matchSingleConst, if_pos h1]
  have h3 : (('(' :: x).takeWhile isPySpace) = [] := by
    rw [List.takeWhile_cons]
    have : isPySpace '(' = false := by decide
    rw [this]
    simp
  show (((List.range (('(' :: x).takeWhile isPySpace).length).reverse.map (· + 1)).findSome?
      fun w => dotStarTail (('(' :: x).drop w)) = none
  rw [h3]
  rfl

theorem matchDoubleConst_constParen (x : List Char) :
    matchDoubleConst ('c' :: 'o' :: 'n' :: 's' :: 't' :: '(' :: x) = none := by
  have h1 : ('c' :: 'o' :: 'n' :: 's' :: 't' :: '(' :: x).take 5 = "const".toList := rfl
  rw [matchDoubleConst, if_pos h1]
  have h3 : (('(' :: x).takeWhile isPySpace) = [] := by
    rw [List.takeWhile_cons]
    have : isPySpace '(' = false := by decide
    rw [this]
    simp
  show (((List.range (('(' :: x).takeWhile isPySpace).length).reverse.map (· + 1)).findSome?
      fun w => dotStarConstTail (('(' :: x).drop w)) = none
  rw [h3]
  rfl

/-- A translated output, which always begins with the six characters
`const(`, matches neither pattern, so a second translation is the
identity. -/
theorem convertTypeConst_fixes_constParen (x : String) :
    convertTypeConst ("const(" ++ x) = "const(" ++ x := by
  have hl : ("const(" ++ x).toList = 'c' :: 'o' :: 'n' :: 's' :: 't' :: '(' :: x.toList := by
    show ("const(" ++ x).data = _
    rw [String.data_append]
    rfl
  rw [convertTypeConst, hl, matchDoubleConst_constParen, matchSingleConst_constParen]

/-- C9: For every input type string matching the double-const-pointer or
single-const-pointer pattern, `convertTypeConst` is idempotent: applying it
to its own output returns that output unchanged. -/
theorem convertTypeConst_idem (typ : String)
    (h : (matchDoubleConst typ.toList).isSome = true ∨
      (matchSingleConst typ.toList).isSome = true) :
    convertTypeConst (convertTypeConst typ) = convertTypeConst typ := by
  cases hd : matchDoubleConst typ.toList with
  | some g =>
    have he : convertTypeConst typ = "const(" ++ (g.asString ++ "*)*") := by
      rw [convertTypeConst, hd, ← String.append_assoc]
    rw [he, convertTypeConst_fixes_constParen]
  | none =>
    cases hs : matchSingleConst typ.toList with
    | some g =>
      have he : convertTypeConst typ = "const(" ++ (g.asString ++ ")*") := by
        rw [convertTypeConst, hd, hs, ← String.append_assoc]
      rw [he, convertTypeConst_fixes_constParen]
    | none =>
      rcases h with h | h
      · rw [hd] at h
        exact absurd h (by simp)
      · rw [hs] at h
        exact absurd h (by simp)

/-- Witness for C9 at the concrete input `"const char*"`. -/
theorem convertTypeConst_idem_witness :
    convertTypeConst (convertTypeConst "const char*") = convertTypeConst "const char*" :=
  convertTypeConst_idem "const char*" (Or.inr (by decide))

/-! ## C1: the genCmd classification puts each fresh name in exactly one set -/

theorem mem_pySetAdd {l : List String} {x y : String} :
    x ∈ pySetAdd l y ↔ x ∈ l ∨ x = y := by
  rw [pySetAdd]
  split
  case isTrue h =>
    constructor
    · exact fun hx => Or.inl hx
    · rintro (hx | rfl)
      · exact hx
      · exact h
  case isFalse h =>
    rw [List.mem_append, List.mem_singleton]

theorem pySetAdd_ne_nil (l : List String) (x : String) : pySetAdd l x ≠ [] := by
  rw [pySetAdd]
  split
  case isTrue h => exact List.ne_nil_of_length_pos (List.length_pos.mpr (by rintro rfl; cases h))
  case isFalse h => simp

/-- C1: after the classification step of `genCmd` runs on a command whose
name is in neither set yet, the name appears in exactly one of
`instanceLevelFuncNames` and `deviceLevelFuncNames`, and it appears in
`deviceLevelFuncNames` iff the first parameter's resolved (pre-translation)
`getFullType` is one of `VkDevice`, `VkQueue`, `VkCommandBuffer` and the
name is not the bootstrap command `vkGetDeviceProcAddr`. -/
theorem genCmdClassify_exactlyOne (name : String) (params : List ParamElem)
    (st st' : CmdClassState)
    (h1 : name ∉ st.instanceLevelFuncNames) (h2 : name ∉ st.deviceLevelFuncNames)
    (hrun : genCmdClassify name params st = some st') :
    (name ∈ st'.deviceLevelFuncNames ↔
      ((∃ p rest, params = p :: rest ∧ getFullType p ∈ deviceHandleTypes) ∧
        name ≠ "vkGetDeviceProcAddr")) ∧
    (name ∈ st'.instanceLevelFuncNames ↔
      ¬((∃ p rest, params = p :: rest ∧ getFullType p ∈ deviceHandleTypes) ∧
        name ≠ "vkGetDeviceProcAddr")) ∧
    ¬(name ∈ st'.instanceLevelFuncNames ∧ name ∈ st'.deviceLevelFuncNames) := by
  rw [genCmdClassify] at hrun
  split at hrun
  case isTrue hn =>
    cases params with
    | nil => simp at hrun
    | cons p rest =>
      rw [List.getElem?_cons_zero, Option.map_some', Option.some.injEq] at hrun
      split at hrun
      next hdev =>
        subst hrun
        have hc : (∃ q qrest, p :: rest = q :: qrest ∧ getFullType q ∈ deviceHandleTypes) ∧
            name ≠ "vkGetDeviceProcAddr" := ⟨⟨p, rest, rfl, hdev⟩, hn⟩
        exact ⟨⟨fun _ => hc, fun _ => mem_pySetAdd.mpr (Or.inr rfl)⟩,
          ⟨fun hx => absurd hx h1, fun hnc => absurd hc hnc⟩,
          fun hb => absurd hb.1 h1⟩
      next hdev =>
        subst hrun
        have hnc : ¬((∃ q qrest, p :: rest = q :: qrest ∧ getFullType q ∈ deviceHandleTypes) ∧
            name ≠ "vkGetDeviceProcAddr") := by
          rintro ⟨⟨q, qrest, hq, hqdev⟩, -⟩
          rw [List.cons.injEq] at hq
          refine hdev ?_
          rw [hq.1]
          exact hqdev
        exact ⟨⟨fun hx => absurd hx h2, fun hcc => absurd hcc hnc⟩,
          ⟨fun _ => hnc, fun _ => mem_pySetAdd.mpr (Or.inr rfl)⟩,
          fun hb => absurd hb.2 h2⟩
  case isFalse hn =>
    rw [Option.some.injEq] at hrun
    subst hrun
    rw [not_not] at hn
    have hnc : ¬((∃ q qrest, params = q :: qrest ∧ getFullType q ∈ deviceHandleTypes) ∧
        name ≠ "vkGetDeviceProcAddr") := fun hcc => hcc.2 hn
    exact ⟨⟨fun hx => absurd hx h2, fun hcc => absurd hcc hnc⟩,
      ⟨fun _ => hnc, fun _ => mem_pySetAdd.mpr (Or.inr rfl)⟩,
      fun hb => absurd hb.2 h2⟩

/-- Witness for C1: `vkQueueSubmit`, whose first parameter resolves to
`VkQueue`, lands in the device-level set and only there. -/
theorem genCmdClassify_exactlyOne_witness :
    ("vkQueueSubmit" ∈ (CmdClassState.mk [] ["vkQueueSubmit"]).deviceLevelFuncNames ↔
      ((∃ p rest, [ParamElem.mk none "VkQueue" none none "queue" none] = p :: rest ∧
          getFullType p ∈ deviceHandleTypes) ∧
        "vkQueueSubmit" ≠ "vkGetDeviceProcAddr")) ∧
    ("vkQueueSubmit" ∈ (CmdClassState.mk [] ["vkQueueSubmit"]).instanceLevelFuncNames ↔
      ¬((∃ p rest, [ParamElem.mk none "VkQueue" none none "queue" none] = p :: rest ∧
          getFullType p ∈ deviceHandleTypes) ∧
        "vkQueueSubmit" ≠ "vkGetDeviceProcAddr")) ∧
    ¬("vkQueueSubmit" ∈ (CmdClassState.mk [] ["vkQueueSubmit"]).instanceLevelFuncNames ∧
      "vkQueueSubmit" ∈ (CmdClassState.mk [] ["vkQueueSubmit"]).deviceLevelFuncNames) :=
  genCmdClassify_exactlyOne "vkQueueSubmit"
    [ParamElem.mk none "VkQueue" none none "queue" none]
    ⟨[], []⟩ ⟨[], ["vkQueueSubmit"]⟩ (by decide) (by decide) (by decide)

/-! ## C7: genCmd on zero-parameter commands -/

/-- C7 counterexample: on a zero-parameter command not named
`vkGetDeviceProcAddr`, the classification step of `genCmd` evaluates
`params[0]` and raises `IndexError` (modelled by `none`), so `genCmd` is
not total on zero-parameter commands. -/
theorem genCmdClassify_empty_crashes :
    genCmdClassify "vkFoo" [] ⟨[], []⟩ = none := by decide

/-- C7 (amended): on a zero-parameter command the alias-emission step of
`genCmd` is total and emits an explicitly empty parameter list (no `void`
placeholder), but the classification step that follows indexes the first
parameter and raises `IndexError` (modelled by `none`) unless the command
is named `vkGetDeviceProcAddr`, whose name test short-circuits the
conjunction and which is classified instance-level. -/
theorem genCmd_empty_params (name : String) (proto : ParamElem)
    (opaqStruct : List String) (st : CmdClassState) :
    genCmdEmit name proto [] opaqStruct =
      ("\talias PFN_" ++ name ++ " = " ++
        convertTypeConst (pyStripWs (getFullType proto).toList).asString ++
        " function();", opaqStruct) ∧
    (name ≠ "vkGetDeviceProcAddr" → genCmdClassify name [] st = none) ∧
    (name = "vkGetDeviceProcAddr" → genCmdClassify name [] st =
      some { st with instanceLevelFuncNames := pySetAdd st.instanceLevelFuncNames name }) := by
  refine ⟨?_, ?_, ?_⟩
  · rw [genCmdEmit]
    rw [Prod.mk.injEq]
    refine ⟨?_, rfl⟩
    rw [List.foldl_nil]
    rw [show String.intercalate ", " ([] : List String) = "" from rfl]
    rw [String.append_assoc _ "" ");", show ("" ++ ");" : String) = ");" from rfl]
    rw [String.append_assoc _ " function(" ");",
      show (" function(" ++ ");" : String) = " function();" from rfl]
  · intro hn
    rw [genCmdClassify, if_pos hn]
    rfl
  · intro hn
    rw [genCmdClassify, if_neg (fun hc => hc hn)]

/-- Witness for C7 (amended) at the zero-parameter command `vkBar`. -/
theorem genCmd_empty_params_witness :
    genCmdClassify "vkBar" [] ⟨[], []⟩ = none :=
  (genCmd_empty_params "vkBar" ⟨none, "void", none, none, "vkBar", none⟩ [] ⟨[], []⟩).2.1
    (by decide)

/-! ## C2: the synthesized sType default value -/

/-- C2: for every struct entry with a processed member whose name is
literally `sType` and whose translated type is `VkStructureType`, the
emitted field carries the synthesized default value
`VkStructureType.VK_STRUCTURE_TYPE_` followed by the struct name with its
two-character vendor prefix dropped, an underscore inserted at each
lowercase-to-uppercase transition, and the result upper-cased — except for
the struct named `VkWin32SurfaceCreateInfoKHR`, which receives the
hand-mapped literal `WIN32_SURFACE_CREATE_INFO_KHR` token instead. -/
theorem genStruct_sType_default (category name : String) (members : List ParamElem)
    (indent : String) (i : Nat)
    (hi : (members.map memberTypeNamePair)[i]? = some ("VkStructureType", "sType")) :
    (genStructLines category name members indent)[i + 1]? = some
      (if name = "VkWin32SurfaceCreateInfoKHR" then
        "\t" ++ ljust "VkStructureType" (targetLenOf (members.map memberTypeNamePair) + 1) ++
          " sType = VkStructureType.VK_STRUCTURE_TYPE_" ++ "WIN32_SURFACE_CREATE_INFO_KHR" ++ ";"
      else
        "\t" ++ ljust "VkStructureType" (targetLenOf (members.map memberTypeNamePair)) ++
          "  sType = VkStructureType.VK_STRUCTURE_TYPE_" ++
          (pyUpper (camelCaseSub (name.toList.drop 2))).asString ++ ";") := by
  have hlen : i < (members.map memberTypeNamePair).length :=
    (List.getElem?_eq_some.mp hi).1
  rw [genStructLines, List.getElem?_append_left
    (by rw [List.length_cons, List.length_map]; omega)]
  rw [List.getElem?_cons_succ, List.getElem?_map, hi, Option.map_some']
  rw [structFieldLine, if_pos ⟨rfl, rfl⟩]
  by_cases hw : name = "VkWin32SurfaceCreateInfoKHR"
  · rw [if_pos hw, if_pos (beq_iff_eq.mpr hw)]
  · rw [if_neg hw, if_neg (fun hb => hw (beq_iff_eq.mp hb))]

/-- Witness for C2: the struct `VkInstanceCreateInfo` with a lone `sType`
member derives the token `INSTANCE_CREATE_INFO`. -/
theorem genStruct_sType_default_witness :
    (genStructLines "struct" "VkInstanceCreateInfo"
        [ParamElem.mk none "VkStructureType" none none "sType" none] "")[1]? = some
      (if "VkInstanceCreateInfo" = "VkWin32SurfaceCreateInfoKHR" then
        "\t" ++ ljust "VkStructureType"
            (targetLenOf ([ParamElem.mk none "VkStructureType" none none "sType" none].map
              memberTypeNamePair) + 1) ++
          " sType = VkStructureType.VK_STRUCTURE_TYPE_" ++ "WIN32_SURFACE_CREATE_INFO_KHR" ++ ";"
      else
        "\t" ++ ljust "VkStructureType"
            (targetLenOf ([ParamElem.mk none "VkStructureType" none none "sType" none].map
              memberTypeNamePair)) ++
          "  sType = VkStructureType.VK_STRUCTURE_TYPE_" ++
          (pyUpper (camelCaseSub ("VkInstanceCreateInfo".toList.drop 2))).asString ++ ";") :=
  genStruct_sType_default "struct" "VkInstanceCreateInfo"
    [ParamElem.mk none "VkStructureType" none none "sType" none] "" 0 (by decide)

/-! ## C8: opaque-struct registration and forward declarations -/

/-- C8 counterexample: for the parameter type string `struct chair*`,
Python's `lstrip('struct ')` strips by character *set*, so the generator
registers `hair`, not the bare struct name `chair`; and when the block's
struct section is empty, the block close emits nothing at all even though
the opaque-struct set is non-empty. -/
theorem opaqStruct_counterexample :
    getFullTypeOpaq (ParamElem.mk (some "struct ") "chair" (some "*") none "pChair" none) []
      = ["hair"] ∧
    "chair" ∉ getFullTypeOpaq
      (ParamElem.mk (some "struct ") "chair" (some "*") none "pChair" none) [] ∧
    endFeatureTypeLines (fun _ => []) ["hair"] "" = [] := by
  refine ⟨by decide, by decide, ?_⟩
  rw [endFeatureTypeLines]
  decide

/-- C8 (amended): for every member or parameter element whose built type
string starts with `struct`, the name added to the current block's
opaque-struct set is the type string with all leading characters drawn
from the character set of `'struct '` stripped (which removes the keyword
and the following space, but can also eat leading characters of the name
itself) and trailing `'*'` characters stripped; and at block close the
forward declarations — one per registered name, ahead of the block's
struct bodies — are emitted only when the struct section is non-empty as
well. -/
theorem opaqStruct_registration (elem : ParamElem) (opaqStruct : List String)
    (h : (typstrOf elem).take 6 = "struct".toList) :
    getFullTypeOpaq elem opaqStruct =
      pySetAdd opaqStruct
        (pyRstripSet ['*'] (pyLstripSet structStripSet (typstrOf elem))).asString ∧
    (∀ contents indent, contents ≠ [] →
      sectionOutput "struct" contents (getFullTypeOpaq elem opaqStruct) indent =
        (getFullTypeOpaq elem opaqStruct).map (fun o => indent ++ "struct " ++ o ++ ";") ++
          [""] ++ contents.map (fun c => indent ++ c)) ∧
    (∀ indent, sectionOutput "struct" [] (getFullTypeOpaq elem opaqStruct) indent = []) := by
  have hreg : getFullTypeOpaq elem opaqStruct =
      pySetAdd opaqStruct
        (pyRstripSet ['*'] (pyLstripSet structStripSet (typstrOf elem))).asString := by
    rw [getFullTypeOpaq, if_pos h]
  refine ⟨hreg, ?_, ?_⟩
  · intro contents indent hc
    rw [sectionOutput, if_neg hc, if_pos ⟨rfl, by rw [hreg]; exact pySetAdd_ne_nil _ _⟩]
  · intro indent
    rw [sectionOutput, if_pos rfl]

/-! ## C3 and C10: the genGroup range sentinels and the all-extends crash -/

theorem mmInv_step (processed : List EnumElem) (acc : Option (String × Int × String × Int))
    (e : EnumElem) (h : MMInv processed acc) :
    MMInv (processed ++ [e]) (minMaxStep acc e) := by
  rw [minMaxStep.eq_def]
  by_cases hext : e.extendsAttr.isSome = true
  · rw [if_pos hext]
    cases acc with
    | none =>
      intro x hx
      rcases List.mem_append.mp hx with hx | hx
      · exact h x hx
      · rw [List.mem_singleton] at hx
        subst hx
        exact hext
    | some s =>
      obtain ⟨mn, mv, xn, xv⟩ := s
      obtain ⟨⟨e1, he1, h1⟩, ⟨e2, he2, h2⟩, hb⟩ := h
      refine ⟨⟨e1, List.mem_append_left _ he1, h1⟩, ⟨e2, List.mem_append_left _ he2, h2⟩, ?_⟩
      intro x hx hxe
      rcases List.mem_append.mp hx with hx | hx
      · exact hb x hx hxe
      · rw [List.mem_singleton] at hx
        subst hx
        rw [hxe] at hext
        simp at hext
  · rw [if_neg hext]
    have hnone : e.extendsAttr = none := Option.not_isSome_iff_eq_none.mp (by
      intro hc
      exact hext hc)
    cases acc with
    | none =>
      refine ⟨⟨e, List.mem_append_right _ (List.mem_singleton_self e), hnone, rfl, rfl⟩,
        ⟨e, List.mem_append_right _ (List.mem_singleton_self e), hnone, rfl, rfl⟩, ?_⟩
      intro x hx hxe
      rcases List.mem_append.mp hx with hx | hx
      · exact absurd (h x hx) (by rw [hxe]; simp)
      · rw [List.mem_singleton] at hx
        subst hx
        exact ⟨le_refl _, le_refl _⟩
    | some s =>
      obtain ⟨mn, mv, xn, xv⟩ := s
      obtain ⟨⟨e1, he1, he1e, he1n, he1v⟩, ⟨e2, he2, he2e, he2n, he2v⟩, hb⟩ := h
      have hmvxv : mv ≤ xv := by
        have := hb e1 he1 he1e
        omega
      show MMInv (processed ++ [e])
        (if e.numVal < mv then some (e.name, e.numVal, xn, xv)
         else if xv < e.numVal then some (mn, mv, e.name, e.numVal)
         else some (mn, mv, xn, xv))
      by_cases hlt : e.numVal < mv
      · rw [if_pos hlt]
        refine ⟨⟨e, List.mem_append_right _ (List.mem_singleton_self e), hnone, rfl, rfl⟩,
          ⟨e2, List.mem_append_left _ he2, he2e, he2n, he2v⟩, ?_⟩
        intro x hx hxe
        rcases List.mem_append.mp hx with hx | hx
        · have := hb x hx hxe
          omega
        · rw [List.mem_singleton] at hx
          subst hx
          omega
      · rw [if_neg hlt]
        by_cases hgt : xv < e.numVal
        · rw [if_pos hgt]
          refine ⟨⟨e1, List.mem_append_left _ he1, he1e, he1n, he1v⟩,
            ⟨e, List.mem_append_right _ (List.mem_singleton_self e), hnone, rfl, rfl⟩, ?_⟩
          intro x hx hxe
          rcases List.mem_append.mp hx with hx | hx
          · have := hb x hx hxe
            omega
          · rw [List.mem_singleton] at hx
            subst hx
            omega
        · rw [if_neg hgt]
          refine ⟨⟨e1, List.mem_append_left _ he1, he1e, he1n, he1v⟩,
            ⟨e2, List.mem_append_left _ he2, he2e, he2n, he2v⟩, ?_⟩
          intro x hx hxe
          rcases List.mem_append.mp hx with hx | hx
          · exact hb x hx hxe
          · rw [List.mem_singleton] at hx
            subst hx
            omega

theorem mmInv_foldl (l : List EnumElem) :
    ∀ (processed : List EnumElem) (acc : Option (String × Int × String × Int)),
      MMInv processed acc → MMInv (processed ++ l) (l.foldl minMaxStep acc) := by
  induction l with
  | nil =>
    intro processed acc h
    rw [List.foldl_nil, List.append_nil]
    exact h
  | cons e l ih =>
    intro processed acc h
    rw [List.foldl_cons]
    have := ih (processed ++ [e]) (minMaxStep acc e) (mmInv_step processed acc e h)
    rw [List.append_assoc] at this
    rw [List.singleton_append] at this
    exact this

theorem mmInv_result (l : List EnumElem) :
    MMInv l (l.foldl minMaxStep none) := by
  have h0 : MMInv [] none := by
    intro e he
    cases he
  have := mmInv_foldl l [] none h0
  rw [List.nil_append] at this
  exact this

theorem foldl_minMax_allExt (l : List EnumElem)
    (h : ∀ e ∈ l, e.extendsAttr.isSome = true) :
    l.foldl minMaxStep none = none := by
  induction l with
  | nil => rfl
  | cons e l ih =>
    rw [List.foldl_cons, minMaxStep, if_pos (h e (List.mem_cons_self e l))]
    exact ih fun x hx => h x (List.mem_cons_of_mem e hx)

theorem rsplitBefore_take (l sep : List Char) : ∃ n, rsplitBefore l sep = l.take n := by
  rw [rsplitBefore]
  cases h : lastOcc sep l with
  | some i =>
    exact ⟨i, rfl⟩
  | none =>
    exact ⟨l.length, (List.take_length l).symm⟩

theorem expandPref_take (groupName : String) :
    ∃ n, expandPrefOf groupName = (expandNameOf groupName).take n := by
  rw [expandPrefOf]
  cases h : expandSuffixOf groupName with
  | some suf => exact rsplitBefore_take _ _
  | none => exact ⟨(expandNameOf groupName).length, (List.take_length _).symm⟩

theorem strIn_expandPref_false (groupName : String)
    (hflag : ¬ ("FLAG_BITS".toList <:+: expandNameOf groupName)) :
    strIn "FLAG_BITS".toList (expandPrefOf groupName) = false := by
  rw [strIn, decide_eq_false_iff_not]
  intro hin
  obtain ⟨n, hn⟩ := expandPref_take groupName
  rw [hn] at hin
  refine hflag (hin.trans ?_)
  exact ⟨[], (expandNameOf groupName).drop n, by rw [List.nil_append, List.take_append_drop]⟩

/-- C3: for every grouped enumeration whose expanded name does not contain
the `FLAG_BITS` marker and that has at least one declared member without
an `extends` marker, `genGroup` emits the three sentinel members
`<PREFIX>_BEGIN_RANGE = <minName>`, `<PREFIX>_END_RANGE = <maxName>` and
`<PREFIX>_RANGE_SIZE = (<maxName> - <minName> + 1)`, where `minName` and
`maxName` name members without `extends` attaining the minimum and
maximum signed integer value, and the body always ends with the final
`<PREFIX>_MAX_ENUM` sentinel equal to `0x7FFFFFFF`. -/
theorem genGroup_rangeSentinels (opts : GroupOpts) (groupName : String)
    (elems : List EnumElem)
    (hflag : ¬ ("FLAG_BITS".toList <:+: expandNameOf groupName))
    (hex : ∃ e ∈ elems, e.extendsAttr = none) :
    ∃ mn mv xn xv, elems.foldl minMaxStep none = some (mn, mv, xn, xv) ∧
      (∃ e ∈ elems, e.extendsAttr = none ∧ e.name = mn ∧ e.numVal = mv) ∧
      (∃ e ∈ elems, e.extendsAttr = none ∧ e.name = xn ∧ e.numVal = xv) ∧
      (∀ e ∈ elems, e.extendsAttr = none → mv ≤ e.numVal ∧ e.numVal ≤ xv) ∧
      genGroupBody opts groupName elems =
        some ("\nenum " ++ groupName ++ " \x7b\n" ++ groupBodyMembers opts elems ++
          sentinelText (expandPrefOf groupName) (expandSuffixText groupName) mn xn ++
          "\t" ++ (expandPrefOf groupName).asString ++ "_MAX_ENUM" ++
            (expandSuffixText groupName).asString ++ " = 0x7FFFFFFF\n\x7d") := by
  have hinv := mmInv_result elems
  cases hmm : elems.foldl minMaxStep none with
  | none =>
    rw [hmm] at hinv
    obtain ⟨e, he, hee⟩ := hex
    have := hinv e he
    rw [hee] at this
    simp at this
  | some s =>
    obtain ⟨mn, mv, xn, xv⟩ := s
    rw [hmm] at hinv
    obtain ⟨hmin, hmax, hbound⟩ := hinv
    refine ⟨mn, mv, xn, xv, rfl, hmin, hmax, hbound, ?_⟩
    rw [genGroupBody, strIn_expandPref_false groupName hflag]
    rw [show (!false) = true from rfl, if_pos rfl, hmm]

/-- Witness for C3 at a concrete two-member `VkResult` group. -/
theorem genGroup_rangeSentinels_witness :
    ∃ mn mv xn xv,
      ([EnumElem.mk "VK_SUCCESS" 0 "0" none none none,
        EnumElem.mk "VK_NOT_READY" 1 "1" none none none].foldl minMaxStep none) =
        some (mn, mv, xn, xv) ∧
      (∃ e ∈ [EnumElem.mk "VK_SUCCESS" 0 "0" none none none,
        EnumElem.mk "VK_NOT_READY" 1 "1" none none none],
        e.extendsAttr = none ∧ e.name = mn ∧ e.numVal = mv) ∧
      (∃ e ∈ [EnumElem.mk "VK_SUCCESS" 0 "0" none none none,
        EnumElem.mk "VK_NOT_READY" 1 "1" none none none],
        e.extendsAttr = none ∧ e.name = xn ∧ e.numVal = xv) ∧
      (∀ e ∈ [EnumElem.mk "VK_SUCCESS" 0 "0" none none none,
        EnumElem.mk "VK_NOT_READY" 1 "1" none none none],
        e.extendsAttr = none → mv ≤ e.numVal ∧ e.numVal ≤ xv) ∧
      genGroupBody ⟨fun _ => true, none⟩ "VkResult"
        [EnumElem.mk "VK_SUCCESS" 0 "0" none none none,
         EnumElem.mk "VK_NOT_READY" 1 "1" none none none] =
        some ("\nenum " ++ "VkResult" ++ " \x7b\n" ++
          groupBodyMembers ⟨fun _ => true, none⟩
            [EnumElem.mk "VK_SUCCESS" 0 "0" none none none,
             EnumElem.mk "VK_NOT_READY" 1 "1" none none none] ++
          sentinelText (expandPrefOf "VkResult") (expandSuffixText "VkResult") mn xn ++
          "\t" ++ (expandPrefOf "VkResult").asString ++ "_MAX_ENUM" ++
            (expandSuffixText "VkResult").asString ++ " = 0x7FFFFFFF\n\x7d") :=
  genGroup_rangeSentinels ⟨fun _ => true, none⟩ "VkResult"
    [EnumElem.mk "VK_SUCCESS" 0 "0" none none none,
     EnumElem.mk "VK_NOT_READY" 1 "1" none none none]
    (by decide)
    ⟨EnumElem.mk "VK_SUCCESS" 0 "0" none none none, by decide⟩

/-- C10: `genGroup` is total on a plain-enumeration group only when some
declared member has no `extends` marker: when every member carries one,
the min/max variables stay `None` through the whole loop and the
sentinel-building step raises instead of producing output. -/
theorem genGroup_allExtends_raises (opts : GroupOpts) (groupName : String)
    (elems : List EnumElem)
    (hflag : strIn "FLAG_BITS".toList (expandPrefOf groupName) = false)
    (hext : ∀ e ∈ elems, e.extendsAttr.isSome = true) :
    elems.foldl minMaxStep none = none ∧
    genGroupBody opts groupName elems = none := by
  have hfold := foldl_minMax_allExt elems hext
  refine ⟨hfold, ?_⟩
  rw [genGroupBody, hflag, show (!false) = true from rfl, if_pos rfl, hfold]

/-- Witness for C10: a plain enumeration whose only member extends another
group makes `genGroup` raise. -/
theorem genGroup_allExtends_raises_witness :
    ([EnumElem.mk "VK_STRUCTURE_TYPE_DEBUG_REPORT_CALLBACK_CREATE_INFO_EXT" 1000011000
        "1000011000" (some "VK_EXT_debug_report") (some "vulkan") (some "VkStructureType")]
      |>.foldl minMaxStep none) = none ∧
    genGroupBody ⟨fun _ => true, none⟩ "VkResult"
      [EnumElem.mk "VK_STRUCTURE_TYPE_DEBUG_REPORT_CALLBACK_CREATE_INFO_EXT" 1000011000
        "1000011000" (some "VK_EXT_debug_report") (some "vulkan") (some "VkStructureType")] =
      none :=
  genGroup_allExtends_raises ⟨fun _ => true, none⟩ "VkResult"
    [EnumElem.mk "VK_STRUCTURE_TYPE_DEBUG_REPORT_CALLBACK_CREATE_INFO_EXT" 1000011000
      "1000011000" (some "VK_EXT_debug_report") (some "vulkan") (some "VkStructureType")]
    (by decide) (by decide)

/-- Witness for C8 (amended) at the parameter type string
`struct wl_display*`. -/
theorem opaqStruct_registration_witness :
    getFullTypeOpaq (ParamElem.mk (some "struct ") "wl_display" (some "*") none "display" none)
        ["existing"] =
      pySetAdd ["existing"]
        (pyRstripSet ['*'] (pyLstripSet structStripSet
          (typstrOf
            (ParamElem.mk (some "struct ") "wl_display" (some "*") none "display" none)))).asString :=
  (opaqStruct_registration
    (ParamElem.mk (some "struct ") "wl_display" (some "*") none "display" none)
    ["existing"] (by decide)).1

/-! ## C5: instance-routine resolution statements and the bootstrap set -/

theorem foldl_if_filter (P : String → Prop) [DecidablePred P] (f : String → String)
    (l : List String) :
    ∀ acc : String,
      l.foldl (fun acc n => if P n then acc ++ f n else acc) acc =
        (l.filter fun n => decide (P n)).foldl (fun acc n => acc ++ f n) acc := by
  induction l with
  | nil =>
    intro acc
    rfl
  | cons x l ih =>
    intro acc
    rw [List.foldl_cons, List.filter_cons]
    by_cases h : P x
    · rw [if_pos h, if_pos (decide_eq_true h), List.foldl_cons]
      exact ih _
    · rw [if_neg h, if_neg (fun hd => h (of_decide_eq_true hd))]
      exact ih _

/-- C5: a block command receives an instance-routine resolution statement
iff it is classified instance-level and is not one of the four bootstrap
global-only commands; the four bootstrap commands never receive one, and
the emitted bootstrap entry point `loadGlobalLevelFunctions` instead
assigns each of them directly. -/
theorem instanceLevel_resolution (blockCmdNames instanceLevel : List String)
    (extIndent : String) (n : String) :
    (n ∈ instanceResolvedNames blockCmdNames instanceLevel ↔
      n ∈ blockCmdNames ∧ n ∈ instanceLevel ∧ n ∉ gloablLevelFuncNames) ∧
    (n ∈ gloablLevelFuncNames → n ∉ instanceResolvedNames blockCmdNames instanceLevel) ∧
    instanceLevelAdditions blockCmdNames instanceLevel extIndent =
      (instanceResolvedNames blockCmdNames instanceLevel).foldl
        (fun acc name => acc ++ instanceLoadStmt extIndent name) "" ∧
    (∀ g ∈ gloablLevelFuncNames,
      (g ++ " = ").toList <:+: loadGlobalLevelFunctionsText.toList) := by
  have hmem : n ∈ instanceResolvedNames blockCmdNames instanceLevel ↔
      n ∈ blockCmdNames ∧ n ∈ instanceLevel ∧ n ∉ gloablLevelFuncNames := by
    rw [instanceResolvedNames, List.mem_filter, decide_eq_true_iff]
  refine ⟨hmem, fun hg hr => ((hmem.mp hr).2.2) hg, ?_, by decide⟩
  rw [instanceLevelAdditions, instanceResolvedNames,
    foldl_if_filter (fun name => name ∈ instanceLevel ∧ name ∉ gloablLevelFuncNames)
      (instanceLoadStmt extIndent) blockCmdNames ""]

/-- Witness for C5: in a block containing the bootstrap command
`vkCreateInstance` and the ordinary instance-level command
`vkCreateDevice`, only the latter is resolved by the instance routine. -/
theorem instanceLevel_resolution_witness :
    ("vkCreateDevice" ∈ instanceResolvedNames ["vkCreateInstance", "vkCreateDevice"]
        ["vkCreateInstance", "vkCreateDevice"] ↔
      "vkCreateDevice" ∈ ["vkCreateInstance", "vkCreateDevice"] ∧
      "vkCreateDevice" ∈ ["vkCreateInstance", "vkCreateDevice"] ∧
      "vkCreateDevice" ∉ gloablLevelFuncNames) ∧
    ("vkCreateDevice" ∈ gloablLevelFuncNames →
      "vkCreateDevice" ∉ instanceResolvedNames ["vkCreateInstance", "vkCreateDevice"]
        ["vkCreateInstance", "vkCreateDevice"]) ∧
    instanceLevelAdditions ["vkCreateInstance", "vkCreateDevice"]
        ["vkCreateInstance", "vkCreateDevice"] "" =
      (instanceResolvedNames ["vkCreateInstance", "vkCreateDevice"]
        ["vkCreateInstance", "vkCreateDevice"]).foldl
          (fun acc name => acc ++ instanceLoadStmt "" name) "" ∧
    (∀ g ∈ gloablLevelFuncNames,
      (g ++ " = ").toList <:+: loadGlobalLevelFunctionsText.toList) :=
  instanceLevel_resolution ["vkCreateInstance", "vkCreateDevice"]
    ["vkCreateInstance", "vkCreateDevice"] "" "vkCreateDevice"

/-! ## C6: the loader entry-point assertions -/

theorem infix_toList_append_left {n : List Char} (a b : String)
    (h : n <:+: a.toList) : n <:+: (a ++ b).toList := by
  have heq : (a ++ b).toList = a.toList ++ b.toList := String.data_append a b
  rw [heq]
  exact h.trans ⟨[], b.toList, by simp⟩

theorem loaderRunFrom_invariant (calls : List LoaderCall) :
    ∀ s s', (s.vkGetInstanceProcAddrSet = true → s.ranGlobal = true) →
      (s.vkGetDeviceProcAddrSet = true → s.ranInstance = true) →
      loaderRunFrom s calls = some s' →
      (s'.vkGetInstanceProcAddrSet = true → s'.ranGlobal = true) ∧
      (s'.vkGetDeviceProcAddrSet = true → s'.ranInstance = true) := by
  induction calls with
  | nil =>
    intro s s' h1 h2 h
    rw [loaderRunFrom, List.foldlM_nil] at h
    cases h
    exact ⟨h1, h2⟩
  | cons c calls ih =>
    intro s s' h1 h2 h
    rw [loaderRunFrom, List.foldlM_cons] at h
    cases hc : loaderStep s c with
    | none =>
      rw [hc] at h
      simp at h
    | some s2 =>
      rw [hc] at h
      refine ih s2 s' ?_ ?_ h
      · cases c with
        | loadGlobalLevelFunctions b =>
          rw [loaderStep, Option.some.injEq] at hc
          subst hc
          intro _
          rfl
        | loadInstanceLevelFunctions =>
          rw [loaderStep] at hc
          split at hc
          case isTrue hg =>
            rw [Option.some.injEq] at hc
            subst hc
            intro _
            exact h1 hg
          case isFalse hg =>
            cases hc
        | loadDeviceLevelFunctionsI =>
          rw [loaderStep] at hc
          split at hc
          case isTrue hg =>
            rw [Option.some.injEq] at hc
            subst hc
            exact h1
          case isFalse hg =>
            cases hc
        | loadDeviceLevelFunctionsD =>
          rw [loaderStep] at hc
          split at hc
          case isTrue hg =>
            rw [Option.some.injEq] at hc
            subst hc
            exact h1
          case isFalse hg =>
            cases hc
      · cases c with
        | loadGlobalLevelFunctions b =>
          rw [loaderStep, Option.some.injEq] at hc
          subst hc
          exact h2
        | loadInstanceLevelFunctions =>
          rw [loaderStep] at hc
          split at hc
          case isTrue hg =>
            rw [Option.some.injEq] at hc
            subst hc
            intro _
            rfl
          case isFalse hg =>
            cases hc
        | loadDeviceLevelFunctionsI =>
          rw [loaderStep] at hc
          split at hc
          case isTrue hg =>
            rw [Option.some.injEq] at hc
            subst hc
            exact h2
          case isFalse hg =>
            cases hc
        | loadDeviceLevelFunctionsD =>
          rw [loaderStep] at hc
          split at hc
          case isTrue hg =>
            rw [Option.some.injEq] at hc
            subst hc
            exact h2
          case isFalse hg =>
            cases hc

/-- C6 counterexample: after only the bootstrap has run, the `VkInstance`
overload of `loadDeviceLevelFunctions` passes its assertion and completes
even though `loadInstanceLevelFunctions` has never run (the final state
records `ranInstance = false`): its assert condition checks
`vkGetInstanceProcAddr`, which the bootstrap sets, not anything
established by its claimed predecessor. -/
theorem loadDeviceI_counterexample :
    loaderRun [LoaderCall.loadGlobalLevelFunctions true,
      LoaderCall.loadDeviceLevelFunctionsI] =
      some ⟨true, false, true, false⟩ := by decide

/-- C6 (amended): in every reachable state of the generated loader,
`loadInstanceLevelFunctions` fails its assertion exactly when
`vkGetInstanceProcAddr` is null, and passing it implies the bootstrap ran;
the `VkDevice` overload of `loadDeviceLevelFunctions` fails exactly when
`vkGetDeviceProcAddr` is null, and passing it implies
`loadInstanceLevelFunctions` ran at least once; but the `VkInstance`
overload asserts only `vkGetInstanceProcAddr !is null` — that the
bootstrap ran — not that `loadInstanceLevelFunctions` ran, although its
assertion message names `loadInstanceLevelFunctions` as the prerequisite.
The three template heads carry exactly these assert conditions. -/
theorem loader_assert_order (calls : List LoaderCall) (s : LoaderState)
    (namePrefix : String) (h : loaderRun calls = some s) :
    ((loaderStep s LoaderCall.loadInstanceLevelFunctions).isSome = true ↔
      s.vkGetInstanceProcAddrSet = true) ∧
    ((loaderStep s LoaderCall.loadInstanceLevelFunctions).isSome = true →
      s.ranGlobal = true) ∧
    ((loaderStep s LoaderCall.loadDeviceLevelFunctionsD).isSome = true ↔
      s.vkGetDeviceProcAddrSet = true) ∧
    ((loaderStep s LoaderCall.loadDeviceLevelFunctionsD).isSome = true →
      s.ranInstance = true) ∧
    ((loaderStep s LoaderCall.loadDeviceLevelFunctionsI).isSome = true ↔
      s.vkGetInstanceProcAddrSet = true) ∧
    ((loaderStep s LoaderCall.loadDeviceLevelFunctionsI).isSome = true →
      s.ranGlobal = true) ∧
    "assert(vkGetInstanceProcAddr !is null".toList <:+:
      (loadInstanceLevelFunctionsHead namePrefix).toList ∧
    "assert(vkGetInstanceProcAddr !is null".toList <:+:
      (loadDeviceLevelFunctionsIHead namePrefix).toList ∧
    "assert(vkGetDeviceProcAddr !is null".toList <:+:
      (loadDeviceLevelFunctionsDHead namePrefix).toList := by
  have hinv := loaderRunFrom_invariant calls ⟨false, false, false, false⟩ s
    (fun hx => by cases hx) (fun hx => by cases hx) h
  have hstepI : (loaderStep s LoaderCall.loadInstanceLevelFunctions).isSome = true ↔
      s.vkGetInstanceProcAddrSet = true := by
    rw [loaderStep]
    cases hb : s.vkGetInstanceProcAddrSet
    · simp
    · simp
  have hstepDD : (loaderStep s LoaderCall.loadDeviceLevelFunctionsD).isSome = true ↔
      s.vkGetDeviceProcAddrSet = true := by
    rw [loaderStep]
    cases hb : s.vkGetDeviceProcAddrSet
    · simp
    · simp
  have hstepDI : (loaderStep s LoaderCall.loadDeviceLevelFunctionsI).isSome = true ↔
      s.vkGetInstanceProcAddrSet = true := by
    rw [loaderStep]
    cases hb : s.vkGetInstanceProcAddrSet
    · simp
    · simp
  refine ⟨hstepI, fun hx => hinv.1 (hstepI.mp hx), hstepDD,
    fun hx => hinv.2 (hstepDD.mp hx), hstepDI, fun hx => hinv.1 (hstepDI.mp hx),
    ?_, ?_, ?_⟩
  · exact infix_toList_append_left _ _ (by decide)
  · exact infix_toList_append_left _ _ (by decide)
  · exact infix_toList_append_left _ _ (by decide)

/-- Witness for C6 (amended) after the trace bootstrap-then-instance. -/
theorem loader_assert_order_witness :
    ((loaderStep ⟨true, true, true, true⟩ LoaderCall.loadInstanceLevelFunctions).isSome = true ↔
      (⟨true, true, true, true⟩ : LoaderState).vkGetInstanceProcAddrSet = true) ∧
    ((loaderStep ⟨true, true, true, true⟩ LoaderCall.loadInstanceLevelFunctions).isSome = true →
      (⟨true, true, true, true⟩ : LoaderState).ranGlobal = true) ∧
    ((loaderStep ⟨true, true, true, true⟩ LoaderCall.loadDeviceLevelFunctionsD).isSome = true ↔
      (⟨true, true, true, true⟩ : LoaderState).vkGetDeviceProcAddrSet = true) ∧
    ((loaderStep ⟨true, true, true, true⟩ LoaderCall.loadDeviceLevelFunctionsD).isSome = true →
      (⟨true, true, true, true⟩ : LoaderState).ranInstance = true) ∧
    ((loaderStep ⟨true, true, true, true⟩ LoaderCall.loadDeviceLevelFunctionsI).isSome = true ↔
      (⟨true, true, true, true⟩ : LoaderState).vkGetInstanceProcAddrSet = true) ∧
    ((loaderStep ⟨true, true, true, true⟩ LoaderCall.loadDeviceLevelFunctionsI).isSome = true →
      (⟨true, true, true, true⟩ : LoaderState).ranGlobal = true) ∧
    "assert(vkGetInstanceProcAddr !is null".toList <:+:
      (loadInstanceLevelFunctionsHead "DVulkan").toList ∧
    "assert(vkGetInstanceProcAddr !is null".toList <:+:
      (loadDeviceLevelFunctionsIHead "DVulkan").toList ∧
    "assert(vkGetDeviceProcAddr !is null".toList <:+:
      (loadDeviceLevelFunctionsDHead "DVulkan").toList :=
  loader_assert_order [LoaderCall.loadGlobalLevelFunctions true,
    LoaderCall.loadInstanceLevelFunctions] ⟨true, true, true, true⟩ "DVulkan" (by decide)

end Vkdgen
